/-
Verification of the dr_wandb synchronization/storage layer.

Shallow embedding of:
  - src/dr_wandb/constants.py   (filter fields, run-data components)
  - src/dr_wandb/utils.py       (extract_as_datetime, select_new_and_unfinished_runs)
  - src/dr_wandb/store.py       (RunRecord, HistoryEntryRecord, build_run_query,
                                 build_history_query, delete_history_for_runs,
                                 ProjectStore and its methods, export_to_parquet)
  - src/dr_wandb/downloader.py  (DownloaderStats, Downloader.download_runs,
                                 download_histories, download_project)

Modelling conventions:
  - Python dicts are association lists `List (String × α)` in insertion order,
    read through `dictGet` (first match) and written through `dictSet`
    (replace-in-place or append, like `d[k] = v`); `{**a, **b}` is `dictMerge a b`.
  - Arbitrary JSON-ish remote-reported values are the inductive `Val`;
    `datetime.fromtimestamp` is modelled as the identity on the raw value
    (it is injective on the numeric values the code feeds it, and no claim
    inspects the converted timestamp), so `extract_as_datetime` keeps the
    looked-up `Val` when it is truthy.
  - The SQL tables are in-memory lists: `wandb_runs` keyed by `run_id`
    (primary key = no duplicate `run_id`, carried as a hypothesis where it
    matters) and `wandb_history` with an autoincrement surrogate id.
  - Python `assert` failures and the `TypeError` raised by unpacking a
    non-tuple are modelled with `Except String`.
-/
import Mathlib

set_option autoImplicit false

namespace DrWandb

/-- JSON-like values carried around opaquely by the code (Python `Any`). -/
inductive Val where
  | null : Val
  | bool : Bool → Val
  | int : Int → Val
  | str : String → Val
  | obj : List (String × Val) → Val
deriving Repr

/-- Python dict lookup `d.get(k)` on an insertion-ordered association list. -/
def dictGet {α : Type} : List (String × α) → String → Option α
  | [], _ => none
  | (k', v) :: rest, k => if k' = k then some v else dictGet rest k

/-- Python membership `k in d`. -/
def dictHas {α : Type} (d : List (String × α)) (k : String) : Bool :=
  (dictGet d k).isSome

/-- Python dict write `d[k] = v`: replace in place if the key exists
(keys of a Python dict are unique), append otherwise. -/
def dictSet {α : Type} : List (String × α) → String → α → List (String × α)
  | [], k, v => [(k, v)]
  | (k', v') :: rest, k, v =>
      if k' = k then (k', v) :: rest else (k', v') :: dictSet rest k v

/-- Python `{**a, **b}`: entries of `b` overwrite entries of `a`. -/
def dictMerge {α : Type} (a b : List (String × α)) : List (String × α) :=
  b.foldl (fun d kv => dictSet d kv.1 kv.2) a

/-- Python truthiness of a `Val` (`if data.get(key)`). -/
def Val.truthy : Val → Bool
  | .null => false
  | .bool b => b
  | .int n => n != 0
  | .str s => s != ""
  | .obj l => !l.isEmpty

/-- `utils.extract_as_datetime`:
`datetime.fromtimestamp(data.get(key)) if data.get(key) else None`,
with `fromtimestamp` modelled as the identity on the raw value. -/
def extract_as_datetime (data : List (String × Val)) (key : String) : Option Val :=
  match dictGet data key with
  | some v => if v.truthy then some v else none
  | none => none

/-- `constants.SUPPORTED_FILTER_FIELDS`. -/
def SUPPORTED_FILTER_FIELDS : List String := ["project", "entity", "state", "run_ids"]

/-- `store.RUN_DATA_COMPONENTS`. -/
def RUN_DATA_COMPONENTS : List String :=
  ["config", "summary", "metadata", "system_metrics", "system_attrs", "sweep_info"]

/-- `store.DEFAULT_RUNS_FILENAME` (note: no `.parquet` extension in store.py). -/
def DEFAULT_RUNS_FILENAME : String := "runs_metadata"

/-- `store.DEFAULT_HISTORY_FILENAME` (note: no `.parquet` extension in store.py). -/
def DEFAULT_HISTORY_FILENAME : String := "runs_history"

/-- A remote run handle (`wandb.apis.public.Run`), the black-box attributes the
code reads: `id, name, state, project, entity, created_at, config,
summary._json_dict, metadata, system_metrics, _attrs, sweep_id, sweep_url`. -/
structure WandbRun where
  id : String
  name : String
  state : String
  project : String
  entity : String
  created_at : Option Val
  config : List (String × Val)
  summary_json_dict : List (String × Val)
  metadata : Option (List (String × Val))
  system_metrics : Option (List (String × Val))
  attrs : List (String × Val)
  sweep_id : Val
  sweep_url : Val
deriving Repr

/-- A row of the `wandb_runs` table (`store.RunRecord`): primary key `run_id`,
standard columns, and six JSON component columns. -/
structure RunRecord where
  run_id : String
  run_name : String
  state : String
  project : String
  entity : String
  created_at : Option Val
  config : List (String × Val)
  summary : List (String × Val)
  metadata : List (String × Val)
  system_metrics : List (String × Val)
  system_attrs : List (String × Val)
  sweep_info : List (String × Val)
deriving Repr

/-- `RunRecord.standard_fields()`: the column names not in `RUN_DATA_COMPONENTS`. -/
def RunRecord.standard_fields : List String :=
  ["run_id", "run_name", "state", "project", "entity", "created_at"]

/-- `RunRecord.from_wandb_run`. -/
def RunRecord.from_wandb_run (wandb_run : WandbRun) : RunRecord :=
  { run_id := wandb_run.id
    run_name := wandb_run.name
    state := wandb_run.state
    project := wandb_run.project
    entity := wandb_run.entity
    created_at := wandb_run.created_at
    config := wandb_run.config
    summary := wandb_run.summary_json_dict
    metadata := wandb_run.metadata.getD []
    system_metrics := wandb_run.system_metrics.getD []
    system_attrs := wandb_run.attrs
    sweep_info := [("sweep_id", wandb_run.sweep_id), ("sweep_url", wandb_run.sweep_url)] }

/-- `RunRecord.update_from_wandb_run`: build a fresh record from the run and
copy every column except `run_id` onto the existing record. -/
def RunRecord.update_from_wandb_run (self : RunRecord) (wandb_run : WandbRun) : RunRecord :=
  { RunRecord.from_wandb_run wandb_run with run_id := self.run_id }

/-- Serialize an `Option Val` column value into a dict value (`None` ↦ null). -/
def optVal : Option Val → Val
  | some v => v
  | none => .null

/-- The `include` argument of `RunRecord.to_dict`, annotated
`list[RunDataComponent] | "all" | None` but dynamically any string or list of
strings (`export_to_parquet` actually passes bare component strings). -/
inductive IncludeArg where
  | noval : IncludeArg
  | strval : String → IncludeArg
  | comps : List String → IncludeArg
deriving Repr, DecidableEq

/-- The field list `to_dict` ends up iterating: `include = include or []`
(so `None`, `""` and `[]` give `[]`), the string `"all"` expands to
`RUN_DATA_COMPONENTS`, any other string is iterated character by character
(Python string iteration), and a list is used as is. -/
def IncludeArg.fields : IncludeArg → List String
  | .noval => []
  | .strval s =>
      if s = "" then []
      else if s = "all" then RUN_DATA_COMPONENTS
      else s.toList.map (fun c => String.singleton c)
  | .comps l => l

/-- The standard-column part of `RunRecord.to_dict`
(`{k: getattr(self, k) for k in self.standard_fields()}`). -/
def RunRecord.standard_dict (r : RunRecord) : List (String × Val) :=
  [("run_id", .str r.run_id), ("run_name", .str r.run_name), ("state", .str r.state),
   ("project", .str r.project), ("entity", .str r.entity),
   ("created_at", optVal r.created_at)]

/-- Component column accessed by name (`getattr(self, field)` for a component). -/
def RunRecord.component (r : RunRecord) : String → List (String × Val)
  | "config" => r.config
  | "summary" => r.summary
  | "metadata" => r.metadata
  | "system_metrics" => r.system_metrics
  | "system_attrs" => r.system_attrs
  | "sweep_info" => r.sweep_info
  | _ => []

/-- `RunRecord.to_dict(include)`: `include or []`, `"all"` expands to all
components, assert every requested field is a component, then the standard
columns followed by the requested component columns. -/
def RunRecord.to_dict (r : RunRecord) (include_arg : IncludeArg) :
    Except String (List (String × Val)) :=
  let fields := include_arg.fields
  if fields.all (fun f => RUN_DATA_COMPONENTS.contains f) then
    .ok (fields.foldl (fun d f => dictSet d f (.obj (r.component f))) r.standard_dict)
  else
    .error "AssertionError: to_dict include"

/-- A raw history entry as streamed by `RunHandle.scan_history()`:
a free-form mapping. -/
abbrev HistoryEntry : Type := List (String × Val)

/-- A row of the `wandb_history` table (`store.HistoryEntryRecord`):
autoincrement surrogate `id` (none until the store assigns it on insert),
`run_id`, reserved columns, a metadata JSON column and a metrics JSON column. -/
structure HistoryEntryRecord where
  id : Option Nat
  run_id : String
  step : Option Val
  timestamp : Option Val
  runtime : Option Val
  wandb_metadata : Val
  metrics : List (String × Val)
deriving Repr

/-- Python `k.startswith("_")`, the one-character-prefix test the code uses:
true iff the first character of `k` is `'_'`. -/
def startswith_underscore (k : String) : Bool :=
  match k.data with
  | [] => false
  | c :: _ => c = '_'

/-- `HistoryEntryRecord.from_wandb_history`: reserved keys `_step`,
`_timestamp`, `_runtime`, `_wandb` go to fixed columns; `metrics` keeps the
entries whose key does not start with `"_"`. -/
def HistoryEntryRecord.from_wandb_history (history_entry : HistoryEntry) (run_id : String) :
    HistoryEntryRecord :=
  { id := none
    run_id := run_id
    step := dictGet history_entry "_step"
    timestamp := extract_as_datetime history_entry "_timestamp"
    runtime := dictGet history_entry "_runtime"
    wandb_metadata := (dictGet history_entry "_wandb").getD (.obj [])
    metrics := history_entry.filter (fun kv => ! startswith_underscore kv.1) }

/-- `HistoryEntryRecord.standard_fields()`: the column names other than
`wandb_metadata` and `metrics`. -/
def HistoryEntryRecord.standard_fields : List String :=
  ["id", "run_id", "step", "timestamp", "runtime"]

/-- The standard-column part of `HistoryEntryRecord.to_dict`. -/
def HistoryEntryRecord.standard_dict (h : HistoryEntryRecord) : List (String × Val) :=
  [("id", optVal (h.id.map (fun n => .int n))),
   ("run_id", .str h.run_id), ("step", optVal h.step),
   ("timestamp", optVal h.timestamp), ("runtime", optVal h.runtime)]

/-- `HistoryEntryRecord.to_dict(include_metadata)`:
`{**standard columns, **self.metrics, **({"wandb_metadata": ...} if ...)}`. -/
def HistoryEntryRecord.to_dict (h : HistoryEntryRecord) (include_metadata : Bool) :
    List (String × Val) :=
  dictMerge (dictMerge h.standard_dict h.metrics)
    (if include_metadata then [("wandb_metadata", h.wandb_metadata)] else [])

/-- A value in the query-filter mapping `dict[FilterField, Any]`. -/
inductive FilterVal where
  | null : FilterVal
  | str : String → FilterVal
  | strList : List String → FilterVal
deriving Repr, DecidableEq

/-- The filter mapping argument (`kwargs`). -/
abbrev Filters : Type := List (String × FilterVal)

/-- The two `assert`s guarding `build_run_query`: every key is a supported
filter field and every value is non-null. -/
def filters_valid (kwargs : Filters) : Bool :=
  kwargs.all (fun kv => SUPPORTED_FILTER_FIELDS.contains kv.1) &&
  kwargs.all (fun kv => kv.2 != .null)

/-- SQL equality of a string column against a filter value
(`RunRecord.<col> == kwargs[k]`); comparing a column to a non-string value
matches nothing. -/
def FilterVal.eqCol : FilterVal → String → Bool
  | .str s, x => x = s
  | _, _ => false

/-- SQL membership of a string column in a filter value
(`RunRecord.run_id.in_(kwargs["run_ids"])`); a non-list value matches nothing. -/
def FilterVal.memCol : FilterVal → String → Bool
  | .strList l, x => l.contains x
  | _, _ => false

/-- The WHERE clauses of `build_run_query`, accumulated in the code's order
(each `query.where(...)` conjoins one clause). -/
def run_query_pred (kwargs : Filters) (r : RunRecord) : Bool :=
  let q := true
  let q := if dictHas kwargs "project"
    then q && FilterVal.eqCol ((dictGet kwargs "project").getD .null) r.project else q
  let q := if dictHas kwargs "entity"
    then q && FilterVal.eqCol ((dictGet kwargs "entity").getD .null) r.entity else q
  let q := if dictHas kwargs "state"
    then q && FilterVal.eqCol ((dictGet kwargs "state").getD .null) r.state else q
  let q := if dictHas kwargs "run_ids"
    then q && FilterVal.memCol ((dictGet kwargs "run_ids").getD .null) r.run_id else q
  q

/-- `store.build_run_query(kwargs)`: with `kwargs=None` no filtering; otherwise
the asserts run while the query is built (before it ever executes), and the
query filters `wandb_runs` by the conjunction of the provided clauses. -/
def build_run_query (kwargs : Option Filters) : Except String (RunRecord → Bool) :=
  match kwargs with
  | none => .ok (fun _ => true)
  | some kw =>
      if filters_valid kw then .ok (run_query_pred kw)
      else .error "AssertionError: build_run_query"

/-- `store.build_history_query(run_ids)`: select all history rows, optionally
restricted to `run_id IN run_ids`. -/
def build_history_query (run_ids : Option (List String)) : HistoryEntryRecord → Bool :=
  fun h => match run_ids with
  | none => true
  | some rids => rids.contains h.run_id

/-- `store.delete_history_for_runs(session, run_ids)` acting on the
`wandb_history` table: no-op on an empty id list, otherwise
`DELETE FROM wandb_history WHERE run_id = ANY(run_ids)`. -/
def delete_history_for_runs (history : List HistoryEntryRecord) (run_ids : List String) :
    List HistoryEntryRecord :=
  if run_ids.isEmpty then history
  else history.filter (fun h => !run_ids.contains h.run_id)

/-- The persistent state behind a `ProjectStore`: the `wandb_runs` table, the
`wandb_history` table, and the next autoincrement history id. -/
structure StoreState where
  runs : List RunRecord
  history : List HistoryEntryRecord
  next_id : Nat

/-- The empty store (`create_tables` on a fresh database). -/
def StoreState.empty : StoreState := { runs := [], history := [], next_id := 0 }

/-- `session.get(RunRecord, run_id)`: primary-key lookup. -/
def session_get (runs : List RunRecord) (run_id : String) : Option RunRecord :=
  runs.find? (fun r => r.run_id = run_id)

/-- `ProjectStore.store_run(run)`: update the existing record in place if the
primary key is present, otherwise insert a fresh record; one commit. -/
def StoreState.store_run (s : StoreState) (run : WandbRun) : StoreState :=
  match session_get s.runs run.id with
  | some _ =>
      { s with runs := s.runs.map (fun r =>
          if r.run_id = run.id then r.update_from_wandb_run run else r) }
  | none => { s with runs := s.runs ++ [RunRecord.from_wandb_run run] }

/-- The rows inserted for one run's history, with autoincrement ids assigned
from `start_id` in insertion order. -/
def mkHistoryRows (run_id : String) (history : List HistoryEntry) (start_id : Nat) :
    List HistoryEntryRecord :=
  history.enum.map (fun ie =>
    { HistoryEntryRecord.from_wandb_history ie.2 run_id with id := some (start_id + ie.1) })

/-- `ProjectStore.store_history(run_id, history)`: within one transaction,
delete all existing rows for `run_id`, then insert one row per entry. -/
def StoreState.store_history (s : StoreState) (run_id : String) (history : List HistoryEntry) :
    StoreState :=
  { s with
    history := delete_history_for_runs s.history [run_id] ++
      mkHistoryRows run_id history s.next_id
    next_id := s.next_id + history.length }

/-- The insertion loop of `store_histories`, one batch of rows per run. -/
def mkHistoryRowsBatches (run_ids : List String) (histories : List (List HistoryEntry))
    (start_id : Nat) : List HistoryEntryRecord :=
  match run_ids, histories with
  | rid :: rids, h :: hs =>
      mkHistoryRows rid h start_id ++ mkHistoryRowsBatches rids hs (start_id + h.length)
  | _, _ => []

/-- `ProjectStore.store_histories(runs, histories)`: assert equal lengths, then
in one transaction delete all rows of every given run and insert the batches
(`zip(run_ids, histories)`). -/
def StoreState.store_histories (s : StoreState) (runs : List WandbRun)
    (histories : List (List HistoryEntry)) : Except String StoreState :=
  if runs.length = histories.length then
    let run_ids := runs.map (fun r => r.id)
    .ok { s with
      history := delete_history_for_runs s.history run_ids ++
        mkHistoryRowsBatches run_ids histories s.next_id
      next_id := s.next_id + (histories.map List.length).sum }
  else .error "AssertionError: store_histories"

/-- `ProjectStore.get_runs_df(include, kwargs)`: run the filtered run query and
serialize each resulting record with `to_dict(include)`. -/
def StoreState.get_runs_df (s : StoreState) (include_arg : IncludeArg)
    (kwargs : Option Filters) : Except String (List (List (String × Val))) := do
  let p ← build_run_query kwargs
  (s.runs.filter p).mapM (fun r => r.to_dict include_arg)

/-- `ProjectStore.get_history_df(include_metadata, run_ids)`. -/
def StoreState.get_history_df (s : StoreState) (include_metadata : Bool)
    (run_ids : Option (List String)) : List (List (String × Val)) :=
  (s.history.filter (build_history_query run_ids)).map
    (fun h => h.to_dict include_metadata)

/-- `ProjectStore.get_existing_run_states(kwargs)`: mapping `run_id → state`
over the filtered runs. -/
def StoreState.get_existing_run_states (s : StoreState) (kwargs : Option Filters) :
    Except String (List (String × String)) := do
  let p ← build_run_query kwargs
  .ok ((s.runs.filter p).map (fun r => (r.run_id, r.state)))

/-- A serialized result set, one dict per row (the rows of a DataFrame). -/
abbrev DF : Type := List (List (String × Val))

/-- `df.empty`. -/
def DF.isEmpty (df : DF) : Bool := List.isEmpty df

/-- The `for include_type in RUN_DATA_COMPONENTS` loop of `export_to_parquet`:
note the code passes the bare component string as `include`
(`self.get_runs_df(include=include_type)`), not a one-element list. -/
def export_component_files (s : StoreState) (runs_filename : String) :
    List String → Except String (List (String × DF))
  | [] => .ok []
  | include_type :: rest => do
      let runs_df ← s.get_runs_df (.strval include_type) none
      let here := if runs_df.isEmpty then []
        else [(runs_filename ++ "_" ++ include_type ++ ".parquet", (runs_df : DF))]
      let others ← export_component_files s runs_filename rest
      .ok (here ++ others)

/-- `ProjectStore.export_to_parquet(runs_filename, history_filename)`: the
sequence of (filename, rows) writes it performs, in order — the history
snapshot (filename used verbatim, no extension appended), one file per
non-empty component query, then the full-run snapshot. An empty result set
writes no file. -/
def StoreState.export_to_parquet (s : StoreState)
    (runs_filename : String := DEFAULT_RUNS_FILENAME)
    (history_filename : String := DEFAULT_HISTORY_FILENAME) :
    Except String (List (String × DF)) := do
  let history_df : DF := s.get_history_df false none
  let history_writes := if history_df.isEmpty then []
    else [(history_filename, history_df)]
  let component_writes ← export_component_files s runs_filename RUN_DATA_COMPONENTS
  let runs_df_full ← s.get_runs_df (.strval "all") none
  let full_writes := if DF.isEmpty runs_df_full then []
    else [(runs_filename ++ ".parquet", (runs_df_full : DF))]
  .ok (history_writes ++ component_writes ++ full_writes)

/-- `downloader.DownloaderStats`. -/
structure DownloaderStats where
  num_wandb_runs : Nat := 0
  num_stored_runs : Nat := 0
  num_new_runs : Nat := 0
  num_updated_runs : Nat := 0
  num_downloaded_histories : Nat := 0
  num_downloaded_history_entries : Nat := 0
  downloaded_rids : List String := []
deriving Repr, DecidableEq

/-- The remote tracking service (`wandb.Api`), as the code uses it:
`api.runs(f"{entity}/{project}")` listed once, and `run.scan_history()` per
run id. `runs` is the listing for the requested entity/project pair. -/
structure Remote where
  runs : List WandbRun
  scan_history : String → List HistoryEntry

/-- `utils.select_new_and_unfinished_runs` (imported by downloader.py under
the name `select_updated_runs`): keep a run iff its id is absent from the
stored states or its stored state is not "finished". -/
def select_new_and_unfinished_runs (all_runs : List WandbRun)
    (existing_run_states : List (String × String)) : List WandbRun :=
  all_runs.filter (fun run =>
    !dictHas existing_run_states run.id ||
    ((dictGet existing_run_states run.id).getD "" != "finished"))

/-- The download-set computation in `Downloader.download_runs`:
everything when `force_refresh`, otherwise the new-and-unfinished selection. -/
def runs_to_download (wandb_runs : List WandbRun)
    (stored_states : List (String × String)) (force_refresh : Bool) : List WandbRun :=
  if force_refresh then wandb_runs
  else select_new_and_unfinished_runs wandb_runs stored_states

/-- The `for i, run in enumerate(runs_to_download)` loop of `download_runs`:
store each run, classify it as new (id not in `stored_states`) or updated,
and append its id to `downloaded_rids`. The progress callback is a side
effect only and is not modelled. -/
def process_runs (stored_states : List (String × String)) :
    StoreState → List WandbRun → DownloaderStats → DownloaderStats × StoreState
  | s, [], stats => (stats, s)
  | s, run :: rest, stats =>
      let s' := s.store_run run
      let stats' :=
        if dictHas stored_states run.id then
          { stats with num_updated_runs := stats.num_updated_runs + 1,
                       downloaded_rids := stats.downloaded_rids ++ [run.id] }
        else
          { stats with num_new_runs := stats.num_new_runs + 1,
                       downloaded_rids := stats.downloaded_rids ++ [run.id] }
      process_runs stored_states s' rest stats'

/-- `Downloader.download_runs(entity, project, force_refresh)`. Its annotated
return type is `tuple[DownloaderStats, list[Run]]`, but on an empty download
set the code does `return stats` — a bare `DownloaderStats`; the `Sum`
distinguishes the two shapes. The resulting store state is threaded
alongside. -/
def download_runs (remote : Remote) (s : StoreState) (entity project : String)
    (force_refresh : Bool) :
    Except String (Sum DownloaderStats (DownloaderStats × List WandbRun × StoreState)) := do
  let wandb_runs := remote.runs
  let stored_states ← s.get_existing_run_states
    (some [("entity", .str entity), ("project", .str project)])
  let selected := runs_to_download wandb_runs stored_states force_refresh
  let stats : DownloaderStats :=
    { num_wandb_runs := wandb_runs.length
      num_stored_runs := stored_states.length
      num_new_runs := 0
      num_updated_runs := 0
      num_downloaded_histories := 0
      num_downloaded_history_entries := 0
      downloaded_rids := [] }
  if selected.isEmpty then
    .ok (.inl stats)
  else
    let r := process_runs stored_states s selected stats
    .ok (.inr (r.1, selected, r.2))

/-- `Downloader.download_histories(runs, stats)`: scan each run's history,
store all batches in one call, and bump the history counters. -/
def download_histories (remote : Remote) (s : StoreState) (runs : List WandbRun)
    (stats : DownloaderStats) : Except String (DownloaderStats × StoreState) := do
  let histories := runs.map (fun run => remote.scan_history run.id)
  let s' ← s.store_histories runs histories
  .ok ({ stats with
    num_downloaded_histories := stats.num_downloaded_histories + histories.length
    num_downloaded_history_entries :=
      stats.num_downloaded_history_entries + (histories.map List.length).sum }, s')

/-- `Downloader.download_project(entity, project, runs_only, force_refresh)`:
`stats, downloaded_runs = self.download_runs(...)` — when `download_runs`
returns a bare `DownloaderStats` (empty download set) the unpacking raises
`TypeError`; otherwise, unless `runs_only`, the histories of the downloaded
runs are fetched and stored. -/
def download_project (remote : Remote) (s : StoreState) (entity project : String)
    (runs_only : Bool := false) (force_refresh : Bool := false) :
    Except String (DownloaderStats × StoreState) := do
  match ← download_runs remote s entity project force_refresh with
  | .inl _ => .error "TypeError: cannot unpack non-iterable DownloaderStats object"
  | .inr (stats, downloaded_runs, s') =>
      if runs_only then .ok (stats, s')
      else download_histories remote s' downloaded_runs stats

/-! ### Auxiliary definitions used by the claim statements and witnesses -/

/-- The reserved keys named by the spec, in both spellings (the spec's column
names and the raw keys of the remote mapping). -/
def claimed_reserved_keys : List String :=
  ["step", "timestamp", "runtime", "metadata", "_step", "_timestamp", "_runtime", "_wandb"]

/-- The stored-states mapping `download_runs` obtains for an entity/project
pair (what `get_existing_run_states` returns on that always-valid filter). -/
def stored_states_for (s : StoreState) (entity project : String) :
    List (String × String) :=
  (s.runs.filter (run_query_pred
    [("entity", FilterVal.str entity), ("project", FilterVal.str project)])).map
    (fun r => (r.run_id, r.state))

/-- The all-zero `DownloaderStats` `download_runs` builds before its loop. -/
def initial_stats (remote : Remote) (stored : List (String × String)) : DownloaderStats :=
  { num_wandb_runs := remote.runs.length
    num_stored_runs := stored.length
    num_new_runs := 0
    num_updated_runs := 0
    num_downloaded_histories := 0
    num_downloaded_history_entries := 0
    downloaded_rids := [] }

/-- The full serialization of a run's record: every standard column and all
six components, with values exactly as `from_wandb_run` derives them. -/
def run_full_dict (w : WandbRun) : List (String × Val) :=
  [("run_id", .str w.id), ("run_name", .str w.name), ("state", .str w.state),
   ("project", .str w.project), ("entity", .str w.entity),
   ("created_at", optVal w.created_at),
   ("config", .obj w.config), ("summary", .obj w.summary_json_dict),
   ("metadata", .obj (w.metadata.getD [])),
   ("system_metrics", .obj (w.system_metrics.getD [])),
   ("system_attrs", .obj w.attrs),
   ("sweep_info", .obj [("sweep_id", w.sweep_id), ("sweep_url", w.sweep_url)])]

/-- A concrete remote run handle used by witnesses and counterexamples. -/
def sample_run (i st : String) : WandbRun :=
  { id := i, name := "n" ++ i, state := st, project := "p", entity := "e",
    created_at := none, config := [], summary_json_dict := [], metadata := none,
    system_metrics := none, attrs := [], sweep_id := .null, sweep_url := .null }

/-- A remote whose single run is already finished, with an empty history. -/
def finished_remote : Remote :=
  { runs := [sample_run "r1" "finished"], scan_history := fun _ => [] }

/-- The store state after the first `download_project` pass over
`finished_remote`. -/
def finished_state1 : StoreState :=
  { runs := [RunRecord.from_wandb_run (sample_run "r1" "finished")], history := [],
    next_id := 0 }

/-- The stats of the first `download_project` pass over `finished_remote`. -/
def finished_stats1 : DownloaderStats :=
  { num_wandb_runs := 1, num_stored_runs := 0, num_new_runs := 1, num_updated_runs := 0,
    num_downloaded_histories := 1, num_downloaded_history_entries := 0,
    downloaded_rids := ["r1"] }

/-- A concrete stored history row used by the export claim. -/
def sample_history_row : HistoryEntryRecord :=
  { id := some 0, run_id := "r", step := none, timestamp := none, runtime := none,
    wandb_metadata := .obj [], metrics := [("a", Val.int 1)] }

/-! ### Basic lemmas about the dict model -/

@[simp] theorem dictGet_nil {α : Type} (k : String) : dictGet ([] : List (String × α)) k = none := rfl

@[simp] theorem dictGet_cons {α : Type} (k' k : String) (v : α) (rest : List (String × α)) :
    dictGet ((k', v) :: rest) k = if k' = k then some v else dictGet rest k := rfl

theorem dictGet_dictSet_self {α : Type} (d : List (String × α)) (k : String) (v : α) :
    dictGet (dictSet d k v) k = some v := by
  induction d with
  | nil => simp [dictSet]
  | cons kv rest ih =>
      obtain ⟨k', v'⟩ := kv
      by_cases h : k' = k <;> simp [dictSet, h, ih]

theorem dictGet_dictSet_other {α : Type} (d : List (String × α)) (k' k : String) (v : α)
    (hne : k' ≠ k) : dictGet (dictSet d k' v) k = dictGet d k := by
  induction d with
  | nil => simp [dictSet, hne]
  | cons kv rest ih =>
      obtain ⟨k₀, v₀⟩ := kv
      by_cases h : k₀ = k'
      · subst h; simp [dictSet, hne]
      · simp [dictSet, h, ih]

@[simp] theorem dictMerge_nil {α : Type} (a : List (String × α)) : dictMerge a [] = a := rfl

theorem dictMerge_cons {α : Type} (a : List (String × α)) (k : String) (v : α)
    (b : List (String × α)) : dictMerge a ((k, v) :: b) = dictMerge (dictSet a k v) b := rfl

theorem dictGet_dictMerge_of_not_mem_keys {α : Type} (a b : List (String × α)) (k : String)
    (h : ∀ kv ∈ b, kv.1 ≠ k) : dictGet (dictMerge a b) k = dictGet a k := by
  induction b generalizing a with
  | nil => simp
  | cons kv rest ih =>
      obtain ⟨k', v'⟩ := kv
      rw [dictMerge_cons, ih _ (fun kv hkv => h kv (List.mem_cons_of_mem _ hkv)),
        dictGet_dictSet_other _ _ _ _ (h (k', v') (List.mem_cons_self _ _))]

theorem dictGet_dictMerge_of_mem {α : Type} (a b : List (String × α)) (k : String) (v : α)
    (hnd : (b.map Prod.fst).Nodup) (hmem : (k, v) ∈ b) :
    dictGet (dictMerge a b) k = some v := by
  induction b generalizing a with
  | nil => simp at hmem
  | cons kv rest ih =>
      obtain ⟨k', v'⟩ := kv
      simp only [List.map_cons, List.nodup_cons] at hnd
      rcases List.mem_cons.mp hmem with heq | hrest
      · injection heq with hk hv
        subst hk; subst hv
        rw [dictMerge_cons,
          dictGet_dictMerge_of_not_mem_keys _ _ _
            (fun kv hkv hk => hnd.1 (by rw [← hk]; exact List.mem_map_of_mem Prod.fst hkv)),
          dictGet_dictSet_self]
      · rw [dictMerge_cons]
        exact ih (dictSet a k' v') hnd.2 hrest

/-! ### C1 — history-entry key classification -/

/-- C1, counterexample: the key `"_loss"` is not a reserved key, yet
`from_wandb_history` neither keeps it as a metric nor extracts it into any
fixed column — the entry's value is dropped entirely, because the split is
the prefix heuristic `not k.startswith("_")`, not an allow-list. -/
theorem from_wandb_history_drops_underscore_metric :
    ("_loss", Val.int 5) ∈ ([("_loss", Val.int 5)] : HistoryEntry) ∧
    "_loss" ∉ claimed_reserved_keys ∧
    (HistoryEntryRecord.from_wandb_history [("_loss", Val.int 5)] "r").metrics = [] ∧
    (HistoryEntryRecord.from_wandb_history [("_loss", Val.int 5)] "r").step = none ∧
    (HistoryEntryRecord.from_wandb_history [("_loss", Val.int 5)] "r").timestamp = none ∧
    (HistoryEntryRecord.from_wandb_history [("_loss", Val.int 5)] "r").runtime = none ∧
    (HistoryEntryRecord.from_wandb_history [("_loss", Val.int 5)] "r").wandb_metadata =
      Val.obj [] :=
  ⟨List.mem_singleton.mpr rfl, by decide, rfl, rfl, rfl, rfl, rfl⟩

/-- C1, amended: `from_wandb_history` extracts the reserved keys `_step`,
`_timestamp`, `_runtime`, `_wandb` into the fixed columns, and an entry key
becomes a metric iff it does not start with `"_"`; hence non-reserved keys
that start with an underscore are silently dropped (the split is a prefix
heuristic, not an explicit allow-list). -/
theorem from_wandb_history_split_amended (e : HistoryEntry) (rid k : String) (v : Val) :
    ((k, v) ∈ (HistoryEntryRecord.from_wandb_history e rid).metrics ↔
      (k, v) ∈ e ∧ startswith_underscore k = false) ∧
    (HistoryEntryRecord.from_wandb_history e rid).run_id = rid ∧
    (HistoryEntryRecord.from_wandb_history e rid).step = dictGet e "_step" ∧
    (HistoryEntryRecord.from_wandb_history e rid).timestamp =
      extract_as_datetime e "_timestamp" ∧
    (HistoryEntryRecord.from_wandb_history e rid).runtime = dictGet e "_runtime" ∧
    (HistoryEntryRecord.from_wandb_history e rid).wandb_metadata =
      (dictGet e "_wandb").getD (.obj []) := by
  refine ⟨?_, rfl, rfl, rfl, rfl, rfl⟩
  simp [HistoryEntryRecord.from_wandb_history, List.mem_filter]

/-- Witness for the amended C1: a plainly named metric is kept. -/
theorem from_wandb_history_split_amended_witness :
    ("loss", Val.int 3) ∈
      (HistoryEntryRecord.from_wandb_history [("loss", Val.int 3)] "r").metrics :=
  (from_wandb_history_split_amended [("loss", Val.int 3)] "r" "loss" (Val.int 3)).1.mpr
    ⟨List.mem_singleton.mpr rfl, rfl⟩

/-! ### C3 — diff correctness -/

/-- C3: a remote run is in the download set iff it is a remote run and either
`force_refresh` is set, or its id has no stored state, or its stored state is
not `"finished"`; equivalently, with `force_refresh = false`, stored-finished
runs are excluded and all others included. -/
theorem runs_to_download_iff (all_runs : List WandbRun)
    (existing_run_states : List (String × String)) (force_refresh : Bool) (run : WandbRun) :
    run ∈ runs_to_download all_runs existing_run_states force_refresh ↔
      run ∈ all_runs ∧
        (force_refresh = true ∨ dictGet existing_run_states run.id = none ∨
          (∃ st, dictGet existing_run_states run.id = some st ∧ st ≠ "finished")) := by
  cases force_refresh with
  | true => simp [runs_to_download]
  | false =>
      simp only [runs_to_download, Bool.false_eq_true, if_false,
        select_new_and_unfinished_runs, List.mem_filter]
      cases hget : dictGet existing_run_states run.id with
      | none => simp [dictHas, hget]
      | some st => simp [dictHas, hget, bne_iff_ne]

/-- Witness for C3: a run whose stored state is "running" is selected again. -/
theorem runs_to_download_iff_witness :
    sample_run "r1" "running" ∈
      runs_to_download [sample_run "r1" "running"] [("r1", "running")] false :=
  (runs_to_download_iff [sample_run "r1" "running"] [("r1", "running")] false
      (sample_run "r1" "running")).mpr
    ⟨List.mem_singleton.mpr rfl, Or.inr (Or.inr ⟨"running", rfl, by decide⟩)⟩

/-! ### C4 — history replace -/

theorem mkHistoryRows_run_id (rid : String) (history : List HistoryEntry) (start_id : Nat) :
    ∀ row ∈ mkHistoryRows rid history start_id, row.run_id = rid := by
  intro row hrow
  obtain ⟨⟨i, e⟩, -, rfl⟩ := List.mem_map.mp hrow
  rfl

theorem delete_history_singleton (history : List HistoryEntryRecord) (R : String) :
    delete_history_for_runs history [R] =
      history.filter (fun h => !(h.run_id == R)) := by
  simp only [delete_history_for_runs, List.isEmpty_cons, if_false, Bool.false_eq_true]
  exact List.filter_congr (fun h _ => by
    cases hR : h.run_id == R <;> simp [List.contains, List.elem, hR])

/-- Rows of run `R` after `store_history R hist`: exactly the freshly inserted
rows derived from `hist`. -/
theorem store_history_filter_eq (s : StoreState) (R : String) (hist : List HistoryEntry) :
    (s.store_history R hist).history.filter (fun h => h.run_id == R) =
      mkHistoryRows R hist s.next_id := by
  unfold StoreState.store_history
  rw [List.filter_append, delete_history_singleton]
  rw [List.filter_filter]
  have h1 : List.filter (fun h => h.run_id == R && !(h.run_id == R)) s.history = [] :=
    List.filter_eq_nil_iff.mpr (fun a _ => by cases h : a.run_id == R <;> simp [h])
  have h2 : List.filter (fun h => h.run_id == R) (mkHistoryRows R hist s.next_id) =
      mkHistoryRows R hist s.next_id :=
    List.filter_eq_self.mpr (fun a ha => by simp [mkHistoryRows_run_id R hist s.next_id a ha])
  rw [h1, h2, List.nil_append]

/-- Rows not of run `R` are untouched by `store_history R hist`: any filter
that rejects all rows with `run_id = R` gives the same result before and
after. -/
theorem store_history_filter_other (s : StoreState) (R : String) (hist : List HistoryEntry)
    (p : HistoryEntryRecord → Bool) (hp : ∀ x, x.run_id = R → p x = false) :
    (s.store_history R hist).history.filter p = s.history.filter p := by
  unfold StoreState.store_history
  rw [List.filter_append, delete_history_singleton, List.filter_filter]
  have h1 : List.filter p (mkHistoryRows R hist s.next_id) = [] :=
    List.filter_eq_nil_iff.mpr (fun a ha => by
      simp [hp a (mkHistoryRows_run_id R hist s.next_id a ha)])
  have h2 : List.filter (fun h => p h && !(h.run_id == R)) s.history = s.history.filter p :=
    List.filter_congr (fun a _ => by
      cases hpa : p a
      · simp
      · cases hR : a.run_id == R
        · simp
        · exact absurd (hp a (by simpa using hR)) (by simp [hpa]))
  rw [h1, h2, List.append_nil]

/-- C4: after `store_history R A` then `store_history R B`, the rows persisted
for `R` are exactly the rows derived from `B` (none of `A`'s rows remain,
whatever step values they share), and the rows of every other run id are
exactly what they were before both calls. -/
theorem store_history_replace (s : StoreState) (R : String) (A B : List HistoryEntry) :
    (((s.store_history R A).store_history R B).history.filter (fun h => h.run_id == R) =
      mkHistoryRows R B (s.store_history R A).next_id) ∧
    (∀ rid : String, rid ≠ R →
      ((s.store_history R A).store_history R B).history.filter (fun h => h.run_id == rid) =
        s.history.filter (fun h => h.run_id == rid)) := by
  refine ⟨store_history_filter_eq _ R B, fun rid hne => ?_⟩
  rw [store_history_filter_other _ R B _ (fun x hx => by simp [hx, Ne.symm hne]),
    store_history_filter_other _ R A _ (fun x hx => by simp [hx, Ne.symm hne])]

/-- Witness for C4 with overlapping step values in the two entry sets. -/
theorem store_history_replace_witness :
    ((StoreState.store_history
        (StoreState.store_history StoreState.empty "r"
          [[("_step", Val.int 0), ("a", Val.int 1)]]) "r"
        [[("_step", Val.int 0), ("b", Val.int 2)]]).history.filter
        (fun h => h.run_id == "r") =
      mkHistoryRows "r" [[("_step", Val.int 0), ("b", Val.int 2)]]
        (StoreState.store_history StoreState.empty "r"
          [[("_step", Val.int 0), ("a", Val.int 1)]]).next_id) ∧
    ((StoreState.store_history
        (StoreState.store_history StoreState.empty "r"
          [[("_step", Val.int 0), ("a", Val.int 1)]]) "r"
        [[("_step", Val.int 0), ("b", Val.int 2)]]).history.filter
        (fun h => h.run_id == "other") =
      StoreState.empty.history.filter (fun h => h.run_id == "other")) :=
  ⟨(store_history_replace StoreState.empty "r" [[("_step", Val.int 0), ("a", Val.int 1)]]
      [[("_step", Val.int 0), ("b", Val.int 2)]]).1,
    (store_history_replace StoreState.empty "r" [[("_step", Val.int 0), ("a", Val.int 1)]]
      [[("_step", Val.int 0), ("b", Val.int 2)]]).2 "other" (by decide)⟩

/-! ### C5 — store_run upsert with full replace -/

theorem update_from_wandb_run_of_key_eq (r : RunRecord) (run : WandbRun)
    (h : r.run_id = run.id) :
    r.update_from_wandb_run run = RunRecord.from_wandb_run run := by
  unfold RunRecord.update_from_wandb_run
  rw [h]
  rfl

theorem map_update_of_no_match (runs : List RunRecord) (run : WandbRun)
    (h : ∀ r ∈ runs, r.run_id ≠ run.id) :
    runs.map (fun r => if r.run_id = run.id then r.update_from_wandb_run run else r) =
      runs := by
  induction runs with
  | nil => rfl
  | cons r rest ih =>
      simp only [List.map_cons, if_neg (h r (List.mem_cons_self r rest)),
        ih (fun x hx => h x (List.mem_cons_of_mem r hx))]

theorem filter_map_update_eq (runs : List RunRecord) (run : WandbRun)
    (hnd : (runs.map RunRecord.run_id).Nodup)
    (hmem : ∃ r ∈ runs, r.run_id = run.id) :
    ((runs.map (fun r => if r.run_id = run.id then r.update_from_wandb_run run else r)).filter
        (fun r => r.run_id == run.id) = [RunRecord.from_wandb_run run]) ∧
    ((runs.map (fun r => if r.run_id = run.id then r.update_from_wandb_run run else r)).filter
        (fun r => !(r.run_id == run.id)) =
      runs.filter (fun r => !(r.run_id == run.id))) := by
  induction runs with
  | nil => simp at hmem
  | cons r rest ih =>
      simp only [List.map_cons, List.nodup_cons] at hnd
      by_cases hr : r.run_id = run.id
      · have hrest : ∀ x ∈ rest, x.run_id ≠ run.id := fun x hx hxid =>
          hnd.1 (by rw [hr, ← hxid]; exact List.mem_map_of_mem RunRecord.run_id hx)
        rw [List.map_cons, if_pos hr, map_update_of_no_match rest run hrest,
          update_from_wandb_run_of_key_eq r run hr]
        constructor
        · rw [List.filter_cons_of_pos (by simp [RunRecord.from_wandb_run]),
            List.filter_eq_nil_iff.mpr (fun x hx => by simp [hrest x hx])]
        · rw [List.filter_cons_of_neg (by simp [RunRecord.from_wandb_run]),
            List.filter_cons_of_neg (by simp [hr])]
      · have hmem' : ∃ x ∈ rest, x.run_id = run.id := by
          rcases hmem with ⟨x, hx, hxid⟩
          rcases List.mem_cons.mp hx with rfl | hx'
          · exact absurd hxid hr
          · exact ⟨x, hx', hxid⟩
        obtain ⟨ih1, ih2⟩ := ih hnd.2 hmem'
        rw [List.map_cons, if_neg hr]
        constructor
        · rw [List.filter_cons_of_neg (by simp [hr]), ih1]
        · rw [List.filter_cons_of_pos (by simp [hr]), ih2,
            List.filter_cons_of_pos (by simp [hr])]

/-- C5: `store_run` leaves exactly one record with key `run.id` — with all
fields (the `run_id` key included, since the updated record keeps its key)
equal to those derived from the run — and every record with a different key
untouched. -/
theorem store_run_upsert (s : StoreState) (run : WandbRun)
    (hnd : (s.runs.map RunRecord.run_id).Nodup) :
    ((s.store_run run).runs.filter (fun r => r.run_id == run.id) =
      [RunRecord.from_wandb_run run]) ∧
    ((s.store_run run).runs.filter (fun r => !(r.run_id == run.id)) =
      s.runs.filter (fun r => !(r.run_id == run.id))) := by
  unfold StoreState.store_run
  cases hfind : session_get s.runs run.id with
  | none =>
      have hno : ∀ r ∈ s.runs, r.run_id ≠ run.id := fun r hr => by
        simpa using List.find?_eq_none.mp hfind r hr
      constructor
      · rw [List.filter_append, List.filter_eq_nil_iff.mpr (fun x hx => by simp [hno x hx]),
          List.nil_append, List.filter_cons_of_pos (by simp [RunRecord.from_wandb_run]),
          List.filter_nil]
      · rw [List.filter_append,
          List.filter_cons_of_neg (by simp [RunRecord.from_wandb_run]), List.filter_nil,
          List.append_nil]
  | some r0 =>
      exact filter_map_update_eq s.runs run hnd
        ⟨r0, List.mem_of_find?_eq_some hfind, by simpa using List.find?_some hfind⟩

/-- Witness for C5 at a concrete store and run. -/
theorem store_run_upsert_witness :
    (((StoreState.empty.runs.map RunRecord.run_id)).Nodup) ∧
    ((StoreState.empty.store_run
        { id := "r1", name := "n1", state := "running", project := "p", entity := "e",
          created_at := none, config := [], summary_json_dict := [], metadata := none,
          system_metrics := none, attrs := [], sweep_id := .null,
          sweep_url := .null }).runs.filter (fun r => r.run_id == "r1") =
      [RunRecord.from_wandb_run
        { id := "r1", name := "n1", state := "running", project := "p", entity := "e",
          created_at := none, config := [], summary_json_dict := [], metadata := none,
          system_metrics := none, attrs := [], sweep_id := .null, sweep_url := .null }]) :=
  ⟨by decide,
    (store_run_upsert StoreState.empty
      { id := "r1", name := "n1", state := "running", project := "p", entity := "e",
        created_at := none, config := [], summary_json_dict := [], metadata := none,
        system_metrics := none, attrs := [], sweep_id := .null, sweep_url := .null }
      (by decide)).1⟩

/-! ### C10 — metrics merged over standard columns in history to_dict -/

/-- C10: in `HistoryEntryRecord.to_dict`, the metrics mapping is merged over
the standard columns, so a metric whose name equals a standard column name
(which that record's dictionary does carry) wins: the returned dictionary maps
that name to the metric value, not to the column value. -/
theorem history_to_dict_metric_overwrites (h : HistoryEntryRecord) (k : String) (v : Val)
    (hstd : k ∈ HistoryEntryRecord.standard_fields)
    (hnd : (h.metrics.map Prod.fst).Nodup)
    (hmem : (k, v) ∈ h.metrics) :
    dictHas h.standard_dict k = true ∧
    dictGet (h.to_dict false) k = some v := by
  constructor
  · simp only [HistoryEntryRecord.standard_fields, List.mem_cons, List.not_mem_nil,
      or_false] at hstd
    rcases hstd with rfl | rfl | rfl | rfl | rfl <;> rfl
  · unfold HistoryEntryRecord.to_dict
    rw [if_neg (by simp), dictMerge_nil]
    exact dictGet_dictMerge_of_mem _ _ _ _ hnd hmem

/-- Witness for C10: a stored entry with a metric literally named `"step"`;
its value displaces the `step` column in the serialized row. -/
theorem history_to_dict_metric_overwrites_witness :
    ("step" ∈ HistoryEntryRecord.standard_fields) ∧
    dictGet
      (HistoryEntryRecord.to_dict
        { id := some 7, run_id := "r", step := some (Val.int 1), timestamp := none,
          runtime := none, wandb_metadata := .obj [],
          metrics := [("step", Val.int 99)] } false) "step" = some (Val.int 99) :=
  ⟨by decide,
    (history_to_dict_metric_overwrites
      { id := some 7, run_id := "r", step := some (Val.int 1), timestamp := none,
        runtime := none, wandb_metadata := .obj [], metrics := [("step", Val.int 99)] }
      "step" (Val.int 99) (by decide) (by decide) (List.mem_singleton.mpr rfl)).2⟩

/-! ### C6 — filter contract -/

/-- C6: the validity boolean is exactly "every key is one of
project/entity/state/run_ids and every value is non-null"; an invalid mapping
makes `build_run_query` — and with it `get_existing_run_states` and
`get_runs_df` — fail on the assert before any query runs; a valid mapping
yields the query predicate, which holds iff every provided filter clause
holds (conjunctive application). -/
theorem run_query_filter_contract (kwargs : Filters) (s : StoreState) (inc : IncludeArg) :
    (filters_valid kwargs = true ↔
      ∀ kv ∈ kwargs,
        kv.1 ∈ ["project", "entity", "state", "run_ids"] ∧ kv.2 ≠ FilterVal.null) ∧
    (filters_valid kwargs = false →
      build_run_query (some kwargs) = .error "AssertionError: build_run_query" ∧
      s.get_existing_run_states (some kwargs) = .error "AssertionError: build_run_query" ∧
      s.get_runs_df inc (some kwargs) = .error "AssertionError: build_run_query") ∧
    (filters_valid kwargs = true →
      build_run_query (some kwargs) = .ok (run_query_pred kwargs)) ∧
    (∀ r : RunRecord, run_query_pred kwargs r = true ↔
      ((∀ v, dictGet kwargs "project" = some v → v.eqCol r.project = true) ∧
       (∀ v, dictGet kwargs "entity" = some v → v.eqCol r.entity = true) ∧
       (∀ v, dictGet kwargs "state" = some v → v.eqCol r.state = true) ∧
       (∀ v, dictGet kwargs "run_ids" = some v → v.memCol r.run_id = true))) := by
  refine ⟨?_, ?_, ?_, ?_⟩
  · unfold filters_valid
    rw [Bool.and_eq_true, List.all_eq_true, List.all_eq_true]
    constructor
    · rintro ⟨h1, h2⟩ kv hkv
      refine ⟨?_, ?_⟩
      · simpa [SUPPORTED_FILTER_FIELDS] using h1 kv hkv
      · simpa using h2 kv hkv
    · intro hall
      refine ⟨fun kv hkv => ?_, fun kv hkv => ?_⟩
      · simpa [SUPPORTED_FILTER_FIELDS] using (hall kv hkv).1
      · simpa using (hall kv hkv).2
  · intro hfalse
    have hq : build_run_query (some kwargs) = .error "AssertionError: build_run_query" := by
      simp [build_run_query, hfalse]
    refine ⟨hq, ?_, ?_⟩
    · simp only [StoreState.get_existing_run_states, hq]
      rfl
    · simp only [StoreState.get_runs_df, hq]
      rfl

  · intro htrue
    simp [build_run_query, htrue]
  · intro r
    unfold run_query_pred
    cases hp : dictGet kwargs "project" <;> cases he : dictGet kwargs "entity" <;>
      cases hs : dictGet kwargs "state" <;> cases hr : dictGet kwargs "run_ids" <;>
      simp [dictHas, hp, he, hs, hr, and_assoc]

/-- Witness for C6 at a concrete rejected mapping and a concrete accepted one. -/
theorem run_query_filter_contract_witness :
    filters_valid [("bogus", FilterVal.str "x")] = false ∧
    build_run_query (some [("bogus", FilterVal.str "x")]) =
      .error "AssertionError: build_run_query" ∧
    filters_valid [("project", FilterVal.str "p")] = true ∧
    build_run_query (some [("project", FilterVal.str "p")]) =
      .ok (run_query_pred [("project", FilterVal.str "p")]) :=
  ⟨by decide,
    ((run_query_filter_contract [("bogus", .str "x")] StoreState.empty .noval).2.1
      (by decide)).1,
    by decide,
    (run_query_filter_contract [("project", .str "p")] StoreState.empty .noval).2.2.1
      (by decide)⟩

/-! ### C2 — second sync pass against an unchanged remote -/

/-- C2 (code bug): with a single already-finished run, the first
`download_project` pass succeeds and stores it; the second pass — unchanged
remote, `force_refresh=False` — selects nothing, so `download_runs` hits its
`return stats` early exit and hands back a bare `DownloaderStats` instead of
its annotated `tuple[DownloaderStats, list[Run]]`, making the unpacking in
`download_project` raise `TypeError` instead of returning a zero-count
`Stats`. -/
theorem download_project_second_call_crashes :
    download_project finished_remote StoreState.empty "e" "p" false false =
      .ok (finished_stats1, finished_state1) ∧
    download_project finished_remote finished_state1 "e" "p" false false =
      .error "TypeError: cannot unpack non-iterable DownloaderStats object" :=
  ⟨rfl, rfl⟩

/-! ### C7 — stats reconciliation -/

theorem process_runs_cons (stored : List (String × String)) (s : StoreState)
    (run : WandbRun) (rest : List WandbRun) (stats : DownloaderStats) :
    process_runs stored s (run :: rest) stats =
      process_runs stored (s.store_run run) rest
        (if dictHas stored run.id then
          { stats with num_updated_runs := stats.num_updated_runs + 1,
                       downloaded_rids := stats.downloaded_rids ++ [run.id] }
         else
          { stats with num_new_runs := stats.num_new_runs + 1,
                       downloaded_rids := stats.downloaded_rids ++ [run.id] }) := rfl

/-- The loop of `download_runs` bumps `num_new_runs + num_updated_runs` by
exactly one per processed run, appends exactly the processed ids to
`downloaded_rids`, and never touches `num_wandb_runs`. -/
theorem process_runs_stats (stored : List (String × String)) :
    ∀ (s : StoreState) (runs : List WandbRun) (stats : DownloaderStats),
      ((process_runs stored s runs stats).1.num_new_runs +
          (process_runs stored s runs stats).1.num_updated_runs =
        stats.num_new_runs + stats.num_updated_runs + runs.length) ∧
      ((process_runs stored s runs stats).1.downloaded_rids =
        stats.downloaded_rids ++ runs.map WandbRun.id) ∧
      ((process_runs stored s runs stats).1.num_wandb_runs = stats.num_wandb_runs) := by
  intro s runs
  induction runs generalizing s with
  | nil => intro stats; exact ⟨by simp [process_runs], by simp [process_runs], rfl⟩
  | cons run rest ih =>
      intro stats
      rw [process_runs_cons]
      cases hmemb : dictHas stored run.id
      · simp only [Bool.false_eq_true, if_false]
        obtain ⟨h1, h2, h3⟩ := ih (s.store_run run)
          { stats with num_new_runs := stats.num_new_runs + 1,
                       downloaded_rids := stats.downloaded_rids ++ [run.id] }
        refine ⟨?_, ?_, ?_⟩
        · rw [h1]; simp [List.length_cons]; omega
        · rw [h2]; simp
        · rw [h3]
      · simp only [if_true]
        obtain ⟨h1, h2, h3⟩ := ih (s.store_run run)
          { stats with num_updated_runs := stats.num_updated_runs + 1,
                       downloaded_rids := stats.downloaded_rids ++ [run.id] }
        refine ⟨?_, ?_, ?_⟩
        · rw [h1]; simp [List.length_cons]; omega
        · rw [h2]; simp
        · rw [h3]

theorem runs_to_download_length_le (rs : List WandbRun) (sts : List (String × String))
    (force_refresh : Bool) : (runs_to_download rs sts force_refresh).length ≤ rs.length := by
  unfold runs_to_download select_new_and_unfinished_runs
  cases force_refresh
  · simp only [Bool.false_eq_true, if_false]
    exact List.length_filter_le _ _
  · simp

/-- `download_histories` only bumps the two history counters: the run counts
and the id list of the stats it was handed come through unchanged. -/
theorem download_histories_fields (remote : Remote) (s : StoreState)
    (runs : List WandbRun) (stats stats' : DownloaderStats) (s' : StoreState)
    (h : download_histories remote s runs stats = .ok (stats', s')) :
    stats'.num_new_runs = stats.num_new_runs ∧
    stats'.num_updated_runs = stats.num_updated_runs ∧
    stats'.downloaded_rids = stats.downloaded_rids ∧
    stats'.num_wandb_runs = stats.num_wandb_runs := by
  unfold download_histories StoreState.store_histories at h
  simp only [List.length_map] at h
  rw [if_pos trivial] at h
  have h2 : Except.ok
      ({ stats with
          num_downloaded_histories := stats.num_downloaded_histories + runs.length
          num_downloaded_history_entries :=
            stats.num_downloaded_history_entries +
              ((runs.map (fun run => remote.scan_history run.id)).map List.length).sum },
        { s with
          history := delete_history_for_runs s.history (runs.map (fun r => r.id)) ++
            mkHistoryRowsBatches (runs.map (fun r => r.id))
              (runs.map (fun run => remote.scan_history run.id)) s.next_id
          next_id := s.next_id +
            ((runs.map (fun run => remote.scan_history run.id)).map List.length).sum }) =
      .ok (stats', s') := h
  rw [Except.ok.injEq, Prod.mk.injEq] at h2
  obtain ⟨h3, -⟩ := h2
  rw [← h3]
  exact ⟨rfl, rfl, rfl, rfl⟩

/-- C7: whenever `download_project` returns a `Stats`, the counts reconcile:
`num_new_runs + num_updated_runs` equals (hence is at most) the number of
runs selected for download, that number is at most `num_wandb_runs`, and
`downloaded_rids` lists exactly the selected runs' ids — each processed run
incremented exactly one of the two counters and appended its id. -/
theorem downloader_stats_reconcile (remote : Remote) (s : StoreState)
    (entity project : String) (runs_only force_refresh : Bool)
    (stats : DownloaderStats) (s' : StoreState)
    (h : download_project remote s entity project runs_only force_refresh =
      .ok (stats, s')) :
    stats.num_new_runs + stats.num_updated_runs ≤
      (runs_to_download remote.runs (stored_states_for s entity project)
        force_refresh).length ∧
    (runs_to_download remote.runs (stored_states_for s entity project)
        force_refresh).length ≤ stats.num_wandb_runs ∧
    stats.num_new_runs + stats.num_updated_runs =
      (runs_to_download remote.runs (stored_states_for s entity project)
        force_refresh).length ∧
    stats.downloaded_rids =
      (runs_to_download remote.runs (stored_states_for s entity project)
        force_refresh).map WandbRun.id := by
  set stored := stored_states_for s entity project with hstored
  set selected := runs_to_download remote.runs stored force_refresh with hsel
  have hdr : download_runs remote s entity project force_refresh =
      (if selected.isEmpty then
        Except.ok (Sum.inl (initial_stats remote stored))
      else
        Except.ok (Sum.inr ((process_runs stored s selected (initial_stats remote stored)).1,
          selected, (process_runs stored s selected (initial_stats remote stored)).2))) := rfl
  unfold download_project at h
  rw [hdr] at h
  cases hemp : selected.isEmpty
  · rw [hemp] at h
    simp only [Bool.false_eq_true, if_false] at h
    have h2 : (if runs_only then
          Except.ok ((process_runs stored s selected (initial_stats remote stored)).1,
            (process_runs stored s selected (initial_stats remote stored)).2)
        else
          download_histories remote
            (process_runs stored s selected (initial_stats remote stored)).2 selected
            (process_runs stored s selected (initial_stats remote stored)).1) =
        .ok (stats, s') := h
    obtain ⟨hsum, hrids, hwandb⟩ :=
      process_runs_stats stored s selected (initial_stats remote stored)
    have hle : selected.length ≤ remote.runs.length :=
      runs_to_download_length_le remote.runs stored force_refresh
    cases runs_only
    · simp only [Bool.false_eq_true, if_false] at h2
      obtain ⟨hn, hu, hr, hw⟩ := download_histories_fields remote
        (process_runs stored s selected (initial_stats remote stored)).2 selected
        (process_runs stored s selected (initial_stats remote stored)).1 stats s' h2
      rw [hn, hu, hr, hw]
      simp only [initial_stats] at hsum hrids hwandb ⊢
      refine ⟨by omega, ?_, by omega, by simpa using hrids⟩
      rw [hwandb]
      exact hle
    · simp only [if_true] at h2
      rw [Except.ok.injEq, Prod.mk.injEq] at h2
      obtain ⟨h4, -⟩ := h2
      rw [← h4]
      simp only [initial_stats] at hsum hrids hwandb ⊢
      refine ⟨by omega, ?_, by omega, by simpa using hrids⟩
      rw [hwandb]
      exact hle
  · rw [hemp] at h
    simp only [if_true] at h
    have h2 : (Except.error
        "TypeError: cannot unpack non-iterable DownloaderStats object" :
        Except String (DownloaderStats × StoreState)) = .ok (stats, s') := h
    cases h2

/-- Witness for C7: the first sync pass over a one-run remote, `runs_only`. -/
theorem downloader_stats_reconcile_witness :
    (download_project finished_remote StoreState.empty "e" "p" true false =
      .ok ({ num_wandb_runs := 1, num_stored_runs := 0, num_new_runs := 1,
             num_updated_runs := 0, num_downloaded_histories := 0,
             num_downloaded_history_entries := 0, downloaded_rids := ["r1"] },
           finished_state1)) ∧
    ({ num_wandb_runs := 1, num_stored_runs := 0, num_new_runs := 1,
       num_updated_runs := 0, num_downloaded_histories := 0,
       num_downloaded_history_entries := 0,
       downloaded_rids := ["r1"] } : DownloaderStats).num_new_runs +
      ({ num_wandb_runs := 1, num_stored_runs := 0, num_new_runs := 1,
         num_updated_runs := 0, num_downloaded_histories := 0,
         num_downloaded_history_entries := 0,
         downloaded_rids := ["r1"] } : DownloaderStats).num_updated_runs ≤
      (runs_to_download finished_remote.runs
        (stored_states_for StoreState.empty "e" "p") false).length :=
  ⟨rfl,
    (downloader_stats_reconcile finished_remote StoreState.empty "e" "p" true false
      { num_wandb_runs := 1, num_stored_runs := 0, num_new_runs := 1,
        num_updated_runs := 0, num_downloaded_histories := 0,
        num_downloaded_history_entries := 0, downloaded_rids := ["r1"] }
      finished_state1 rfl).1⟩

/-! ### C8 — round-trip through store_run and to_dict(include="all") -/

/-- C8: serializing the stored record of a run with every component included
reproduces every original field exactly (`run_full_dict`), and reading the
run back through `get_runs_df(include="all", run_ids=[id])` after `store_run`
yields exactly that one full dictionary. -/
theorem store_run_roundtrip (s : StoreState) (w : WandbRun)
    (hnd : (s.runs.map RunRecord.run_id).Nodup) :
    RunRecord.to_dict (RunRecord.from_wandb_run w) (.strval "all") =
      .ok (run_full_dict w) ∧
    (s.store_run w).get_runs_df (.strval "all")
      (some [("run_ids", FilterVal.strList [w.id])]) = .ok [run_full_dict w] := by
  refine ⟨rfl, ?_⟩
  have hgd : (s.store_run w).get_runs_df (.strval "all")
      (some [("run_ids", FilterVal.strList [w.id])]) =
      ((s.store_run w).runs.filter
        (run_query_pred [("run_ids", FilterVal.strList [w.id])])).mapM
        (fun r => r.to_dict (.strval "all")) := rfl
  have hpred : ∀ r : RunRecord,
      run_query_pred [("run_ids", FilterVal.strList [w.id])] r = (r.run_id == w.id) := by
    intro r
    cases h : r.run_id == w.id <;>
      simp [run_query_pred, dictHas, FilterVal.memCol, List.contains, List.elem, h]
  rw [hgd, List.filter_congr (fun r _ => hpred r), (store_run_upsert s w hnd).1]
  rfl

/-- Witness for C8 on the empty store and a concrete run. -/
theorem store_run_roundtrip_witness :
    ((StoreState.empty.runs.map RunRecord.run_id).Nodup) ∧
    RunRecord.to_dict (RunRecord.from_wandb_run (sample_run "r2" "running"))
        (.strval "all") = .ok (run_full_dict (sample_run "r2" "running")) :=
  ⟨by decide,
    (store_run_roundtrip StoreState.empty (sample_run "r2" "running") (by decide)).1⟩

/-! ### C9 — export behaviour -/

/-- C9 (code bug): on a store holding one run, `export_to_parquet` raises
`AssertionError` inside `RunRecord.to_dict` during the first per-component
query — the loop passes the bare string `"config"` as `include`, whose
characters the assert then checks against `RUN_DATA_COMPONENTS` — so no
component or full snapshot is ever written. On a store with history rows but
no runs the history snapshot is written, but at the verbatim base name
`runs_history`, not at the claimed `<history-base>.<ext>`. -/
theorem export_to_parquet_behavior :
    (StoreState.export_to_parquet
        { runs := [RunRecord.from_wandb_run (sample_run "r1" "finished")], history := [],
          next_id := 0 } DEFAULT_RUNS_FILENAME DEFAULT_HISTORY_FILENAME =
      .error "AssertionError: to_dict include") ∧
    (StoreState.export_to_parquet
        { runs := [], history := [sample_history_row], next_id := 1 }
        DEFAULT_RUNS_FILENAME DEFAULT_HISTORY_FILENAME =
      .ok [(DEFAULT_HISTORY_FILENAME, [sample_history_row.to_dict false])]) ∧
    DEFAULT_HISTORY_FILENAME ≠ DEFAULT_HISTORY_FILENAME ++ ".parquet" :=
  ⟨rfl, rfl, by decide⟩

end DrWandb

